import Mathlib

/-!
Verification of the canu `tgStore` / `overlapPlacement` fragment.

Shallow embedding of:
  * `src/src/bogart/AS_BAT_PlaceReadUsingOverlaps.H` (overlapPlacement,
    its comparators, `erate`);
  * `src/src/stores/tgStore.H` (the tgStore metadata index: entries,
    scalar accessors and mutators, plus the lifecycle operations whose
    declarations appear in the header).

C++ `uint32` values are modelled as `Nat` (with explicit `% 2^32` or
bound hypotheses where width matters), `double` as `ℚ`, raw pointers in
the tig cache as `Option`, and an `assert` failure as an `Option.none`
result of the operation.  Parts of the repository that the header only
declares (the bodies in `tgStore.C`, the `tgTigRecord` / `tgTig` /
`SeqInterval` classes from other headers) are modelled from the
specification; each such definition says so in its doc comment.
-/

/- ### Little-endian byte strings (for the record codec, spec section 4.1) -/

/-- Little-endian byte string of width `w` for value `n` (low byte first). -/
def leBytes : Nat → Nat → List Nat
  | 0, _ => []
  | w + 1, n => (n % 256) :: leBytes w (n / 256)

/-- Value of a little-endian byte string. -/
def leVal : List Nat → Nat
  | [] => 0
  | b :: bs => b + 256 * leVal bs

theorem leBytes_length (w n : Nat) : (leBytes w n).length = w := by
  induction w generalizing n with
  | zero => rfl
  | succ w ih => simp [leBytes, ih]

theorem leVal_leBytes (w n : Nat) : leVal (leBytes w n) = n % 256 ^ w := by
  induction w generalizing n with
  | zero => simp [leBytes, leVal, Nat.mod_one]
  | succ w ih =>
      simp only [leBytes, leVal, ih]
      rw [Nat.pow_succ, Nat.mul_comm (256 ^ w) 256, Nat.mod_mul]

theorem leVal_leBytes_of_lt {w n : Nat} (h : n < 256 ^ w) :
    leVal (leBytes w n) = n := by
  rw [leVal_leBytes, Nat.mod_eq_of_lt h]

/- ### SeqInterval -/

/-- Modelled from the spec: the coordinate interval of a placement on a
tig ("its coordinate interval within the tig", spec section 3); the class
`SeqInterval` lives in `AS_BAT_Unitig.H`, which is not part of the source
fragment.  A begin/end pair of signed positions; the interval is reversed
when its end precedes its begin, and intervals compare by their leftmost
then rightmost coordinate. -/
structure SeqInterval where
  bgn : Int
  fin : Int
deriving DecidableEq, Repr

/-- Interval with both coordinates zero (`SeqInterval()`). -/
def SeqInterval.zero : SeqInterval := ⟨0, 0⟩

/-- Modelled from the spec: an interval is reverse when its end precedes
its begin. -/
def SeqInterval.isReverse (i : SeqInterval) : Bool := i.fin < i.bgn

/-- Modelled from the spec: strict comparison of intervals by leftmost
coordinate, then rightmost coordinate (`operator<` of `SeqInterval`). -/
def SeqInterval.lt (a b : SeqInterval) : Bool :=
  if min a.bgn a.fin ≠ min b.bgn b.fin then min a.bgn a.fin < min b.bgn b.fin
  else max a.bgn a.fin < max b.bgn b.fin

theorem SeqInterval.lt_irrefl (a : SeqInterval) : SeqInterval.lt a a = false := by
  simp [SeqInterval.lt]

/- ### overlapPlacement (AS_BAT_PlaceReadUsingOverlaps.H lines 27-103) -/

/-- One candidate placement of a read on a tig
(`overlapPlacement`, AS_BAT_PlaceReadUsingOverlaps.H lines 27-103).
`double` fields are modelled as `ℚ`. -/
structure overlapPlacement where
  frgID : Nat
  refID : Nat
  tigID : Nat
  clusterID : Int
  position : SeqInterval
  verified : SeqInterval
  covered : SeqInterval
  fCoverage : ℚ
  errors : ℚ
  aligned : Nat
  tigFidx : Nat
  tigLidx : Nat
deriving DecidableEq, Repr

def UINT32_MAX : Nat := 2 ^ 32 - 1

/-- The default constructor `overlapPlacement(uint32 fi=0)`
(AS_BAT_PlaceReadUsingOverlaps.H lines 29-48). -/
def overlapPlacement.ofFrg (fi : Nat) : overlapPlacement :=
  { frgID := fi
    refID := 0
    tigID := 0
    clusterID := 0
    position := SeqInterval.zero
    verified := SeqInterval.zero
    covered := SeqInterval.zero
    fCoverage := 0
    errors := 0
    aligned := 0
    tigFidx := UINT32_MAX
    tigLidx := 0 }

/-- `erate()` (lines 79-81): `(double)errors / aligned`, with no guard on
`aligned`.  In the `ℚ` model a zero divisor yields 0 instead of the IEEE
NaN; the theorems therefore speak about the divisor itself. -/
def overlapPlacement.erate (op : overlapPlacement) : ℚ :=
  op.errors / (op.aligned : ℚ)

/-- The divisor used by `erate()`. -/
def overlapPlacement.erateDivisor (op : overlapPlacement) : ℚ :=
  (op.aligned : ℚ)

/-- `overlapPlacement_byLocation` (lines 113-121): compares by `tigID`,
then by `position.isReverse()`, then by `position`; no other field is
read. -/
def overlapPlacement_byLocation (A B : overlapPlacement) : Bool :=
  if A.tigID ≠ B.tigID then A.tigID < B.tigID
  else if A.position.isReverse ≠ B.position.isReverse then
    (if A.position.isReverse then 1 else 0) < (if B.position.isReverse then (1 : Nat) else 0)
  else SeqInterval.lt A.position B.position

/-- `overlapPlacement_byCluster` (lines 129-133). -/
def overlapPlacement_byCluster (A B : overlapPlacement) : Bool :=
  A.clusterID < B.clusterID

/- ### tgTig: the record and the live object -/

/-- Modelled from the spec: the small enumeration of tig classes
(`tgTig_class`, declared in `tgTig.H`, not in the source fragment; "class
tag (a small enumeration)", spec section 3).  A `Nat` kept below 256,
since the slot serializes it in one byte (spec section 6). -/
abbrev tgTig_class := Nat

/-- Modelled from the spec: one child of a tig — "a read identifier, its
orientation flag, its coordinate interval within the tig, and alignment
metadata" (spec section 3).  The alignment metadata is abstracted into a
single 32-bit field. -/
structure tgChild where
  _rid : Nat
  _isRev : Bool
  _bgn : Nat
  _fin : Nat
  _aln : Nat
deriving DecidableEq, Repr

/-- Modelled from the spec: the scalar header embedded in each metadata
slot (`tgTigRecord`, declared in `tgTig.H`, not in the source fragment).
Carries exactly the scalar attributes the `tgStore.H` accessors read from
`tigRecord`: `_sourceID`, `_sourceBgn`, `_sourceEnd`, `_class`,
`_suggestRepeat`, `_suggestCircular`, `_childrenLen`. -/
structure tgTigRecord where
  _sourceID : Nat
  _sourceBgn : Nat
  _sourceEnd : Nat
  _childrenLen : Nat
  _class : tgTig_class
  _suggestRepeat : Bool
  _suggestCircular : Bool
deriving DecidableEq, Repr

/-- Modelled from the spec: the live tig object (`tgTig`, declared in
`tgTig.H`, not in the source fragment): its identifier, the scalar header
attributes the `tgStore.H` setters write through the cache pointer, and
the variable-length children array (spec section 3). -/
structure tgTig where
  _tigID : Nat
  _sourceID : Nat
  _sourceBgn : Nat
  _sourceEnd : Nat
  _class : tgTig_class
  _suggestRepeat : Bool
  _suggestCircular : Bool
  _children : List tgChild
deriving DecidableEq, Repr

/-- The scalar header a tig would present in a metadata slot. -/
def tgTig.record (t : tgTig) : tgTigRecord :=
  { _sourceID := t._sourceID
    _sourceBgn := t._sourceBgn
    _sourceEnd := t._sourceEnd
    _childrenLen := t._children.length
    _class := t._class
    _suggestRepeat := t._suggestRepeat
    _suggestCircular := t._suggestCircular }

/-- Well-formedness: every 32-bit field fits in 32 bits, the class tag in
its byte, and the children count is below the sanity limit 2^28 (spec
section 4.1); each child's 32-bit fields fit too. -/
def tgChild.wf (c : tgChild) : Prop :=
  c._rid < 2 ^ 32 ∧ c._bgn < 2 ^ 32 ∧ c._fin < 2 ^ 32 ∧ c._aln < 2 ^ 32

def tgTig.wf (t : tgTig) : Prop :=
  t._tigID < 2 ^ 32 ∧ t._sourceID < 2 ^ 32 ∧ t._sourceBgn < 2 ^ 32 ∧
  t._sourceEnd < 2 ^ 32 ∧ t._class < 256 ∧ t._children.length < 2 ^ 28 ∧
  ∀ c ∈ t._children, c.wf

instance : DecidablePred tgChild.wf := fun _ => by
  unfold tgChild.wf; infer_instance

instance : DecidablePred tgTig.wf := fun _ => by
  unfold tgTig.wf; infer_instance

/- ### The record codec (spec section 4.1, bodies live in tgTig.C) -/

/-- Modelled from the spec: fixed-size encoding of one child (codec child
entry, spec section 4.1): 4-byte read id, 1-byte orientation, 4-byte
begin, 4-byte end, 4-byte alignment metadata; little-endian. -/
def tgChild.encode (c : tgChild) : List Nat :=
  leBytes 4 c._rid ++ [if c._isRev then 1 else 0] ++
  leBytes 4 c._bgn ++ leBytes 4 c._fin ++ leBytes 4 c._aln

/-- Modelled from the spec: decode one fixed-size child entry (17 bytes,
in the order of `tgChild.encode`), returning the child and the remaining
bytes; truncated input is a `CorruptPayload`, modelled as `none`. -/
def tgChild.decode : List Nat → Option (tgChild × List Nat)
  | r0 :: r1 :: r2 :: r3 :: fw ::
    b0 :: b1 :: b2 :: b3 :: e0 :: e1 :: e2 :: e3 ::
    a0 :: a1 :: a2 :: a3 :: rest =>
      some ({ _rid := leVal [r0, r1, r2, r3]
              _isRev := fw != 0
              _bgn := leVal [b0, b1, b2, b3]
              _fin := leVal [e0, e1, e2, e3]
              _aln := leVal [a0, a1, a2, a3] }, rest)
  | _ => none

/-- Modelled from the spec: decode `n` consecutive child entries. -/
def decodeChildren : Nat → List Nat → Option (List tgChild × List Nat)
  | 0, bs => some ([], bs)
  | n + 1, bs =>
      match tgChild.decode bs with
      | none => none
      | some (c, rest) =>
          match decodeChildren n rest with
          | none => none
          | some (cs, rest2) => some (c :: cs, rest2)

/-- Modelled from the spec: `encode(tig) → bytes` (spec section 4.1): "a
fixed header block (scalar attributes in a defined order and endianness),
then a 32-bit children-count, then that many fixed-size child entries",
little-endian.  The header block is the tig identifier and the scalar
attributes in the order of spec section 3. -/
def tgTig.encode (t : tgTig) : List Nat :=
  leBytes 4 t._tigID ++ leBytes 4 t._sourceID ++ leBytes 4 t._sourceBgn ++
  leBytes 4 t._sourceEnd ++ [t._class % 256] ++
  [if t._suggestRepeat then 1 else 0] ++ [if t._suggestCircular then 1 else 0] ++
  leBytes 4 t._children.length ++ (t._children.map tgChild.encode).flatten

/-- Modelled from the spec: `decode(bytes) → tig` (spec section 4.1): a
19-byte header block (in the order of `tgTig.encode`), a 4-byte
children-count, then that many child entries.  Truncated input or a
children-count beyond the sanity limit 2^28 is a `CorruptPayload`,
modelled as `none`; bytes after the last child are ignored. -/
def tgTig.decode : List Nat → Option tgTig
  | t0 :: t1 :: t2 :: t3 :: s0 :: s1 :: s2 :: s3 ::
    g0 :: g1 :: g2 :: g3 :: d0 :: d1 :: d2 :: d3 ::
    cl :: sr :: sc :: n0 :: n1 :: n2 :: n3 :: body =>
      let n := leVal [n0, n1, n2, n3]
      if 2 ^ 28 ≤ n then none
      else
        match decodeChildren n body with
        | none => none
        | some (cs, _) =>
            some { _tigID := leVal [t0, t1, t2, t3]
                   _sourceID := leVal [s0, s1, s2, s3]
                   _sourceBgn := leVal [g0, g1, g2, g3]
                   _sourceEnd := leVal [d0, d1, d2, d3]
                   _class := cl
                   _suggestRepeat := sr != 0
                   _suggestCircular := sc != 0
                   _children := cs }
  | _ => none

theorem leBytes_four (x : Nat) :
    leBytes 4 x = [x % 256, x / 256 % 256, x / 256 / 256 % 256, x / 256 / 256 / 256 % 256] := by
  simp [leBytes]

theorem leVal_four_div_mod (x : Nat) (hx : x < 2 ^ 32) :
    leVal [x % 256, x / 256 % 256, x / 256 / 256 % 256, x / 256 / 256 / 256 % 256] = x := by
  have := leVal_leBytes_of_lt (w := 4) (n := x) (by norm_num at hx ⊢; omega)
  rwa [leBytes_four] at this

theorem tgChild_decode_encode (c : tgChild) (hc : c.wf) (rest : List Nat) :
    tgChild.decode (tgChild.encode c ++ rest) = some (c, rest) := by
  obtain ⟨r, v, b, e, a⟩ := c
  obtain ⟨h1, h2, h3, h4⟩ := hc
  simp only [tgChild.encode, leBytes_four, List.cons_append, List.singleton_append,
    List.nil_append, tgChild.decode, Option.some.injEq, Prod.mk.injEq, tgChild.mk.injEq]
  exact ⟨⟨leVal_four_div_mod r h1, by cases v <;> rfl, leVal_four_div_mod b h2,
    leVal_four_div_mod e h3, leVal_four_div_mod a h4⟩, trivial⟩

theorem decodeChildren_encode (cs : List tgChild) (h : ∀ c ∈ cs, c.wf) (rest : List Nat) :
    decodeChildren cs.length ((cs.map tgChild.encode).flatten ++ rest) = some (cs, rest) := by
  induction cs with
  | nil => simp [decodeChildren]
  | cons c cs ih =>
      have hc : c.wf := h c (List.mem_cons_self c cs)
      have hcs : ∀ x ∈ cs, x.wf := fun x hx => h x (List.mem_cons_of_mem c hx)
      simp only [List.length_cons, List.map_cons, List.flatten_cons, List.append_assoc,
        decodeChildren, tgChild_decode_encode c hc, ih hcs]

theorem tgTig_decode_encode (t : tgTig) (ht : t.wf) :
    tgTig.decode (tgTig.encode t) = some t := by
  obtain ⟨ti, si, sb, se, cl, sr, sc, cs⟩ := t
  obtain ⟨h0, h1, h2, h3, h4, h5, h6⟩ := ht
  have e0 := leVal_four_div_mod ti h0
  have e1 := leVal_four_div_mod si h1
  have e2 := leVal_four_div_mod sb h2
  have e3 := leVal_four_div_mod se h3
  have e5 := leVal_four_div_mod cs.length (lt_trans h5 (by norm_num))
  have hdc := decodeChildren_encode cs h6 []
  rw [List.append_nil] at hdc
  simp only [tgTig.encode, leBytes_four, List.cons_append, List.singleton_append,
    List.nil_append, tgTig.decode, e5, hdc]
  rw [if_neg (not_le.mpr h5)]
  simp only [Option.some.injEq, tgTig.mk.injEq]
  refine ⟨e0, e1, e2, e3, Nat.mod_eq_of_lt h4, ?_, ?_, trivial⟩ <;>
    cases sr <;> cases sc <;> rfl

/- ### tgStore state (tgStore.H lines 43-153) -/

/-- `tgStoreType` (tgStore.H lines 33-39). -/
inductive tgStoreType
  | tgStoreCreate
  | tgStoreReadOnly
  | tgStoreWrite
  | tgStoreAppend
  | tgStoreModify
deriving DecidableEq, Repr

/-- Whether a mode opens the store for writing (tgStore.H lines 33-39:
every mode but `tgStoreReadOnly`). -/
def tgStoreType.writable : tgStoreType → Bool
  | .tgStoreReadOnly => false
  | _ => true

/-- `tgStoreEntry` (tgStore.H lines 109-116): the per-tig metadata slot —
the embedded `tgTigRecord` plus one 64-bit word of bitfields:
12-bit `unusedFlags`, 1-bit `flushNeeded`, 1-bit `isDeleted`,
10-bit `svID`, 40-bit `fileOffset`.  The bitfields are modelled as `Bool`
and `Nat` here; `tgStoreEntry.packedWord` below reassembles the word. -/
structure tgStoreEntry where
  tigRecord : tgTigRecord
  unusedFlags : Nat
  flushNeeded : Bool
  isDeleted : Bool
  svID : Nat
  fileOffset : Nat
deriving DecidableEq, Repr

/-- An all-zero slot (zero-initialized memory). -/
def tgStoreEntry.zero : tgStoreEntry :=
  { tigRecord := ⟨0, 0, 0, 0, 0, false, false⟩
    unusedFlags := 0
    flushNeeded := false
    isDeleted := false
    svID := 0
    fileOffset := 0 }

/-- The 64-bit packed word of a slot, assembled from the bitfields of
`tgStoreEntry` (tgStore.H lines 111-115) in declaration order, low bits
first: 12 bits `unusedFlags`, 1 bit `flushNeeded`, 1 bit `isDeleted`,
10 bits `svID`, 40 bits `fileOffset`. -/
def tgStoreEntry.packedWord (e : tgStoreEntry) : Nat :=
  e.unusedFlags % 2 ^ 12
  + 2 ^ 12 * (if e.flushNeeded then 1 else 0)
  + 2 ^ 13 * (if e.isDeleted then 1 else 0)
  + 2 ^ 14 * (e.svID % 2 ^ 10)
  + 2 ^ 24 * (e.fileOffset % 2 ^ 40)

/-- The slot layout exactly as the specification words it (spec section
6): the byte widths of the listed fields — 4-byte source-id, 4-byte
source-begin, 4-byte source-end, 4-byte children-length, 1-byte class,
1-byte flag byte, 2-byte padding, 8-byte packed word — kept separate from
the source-derived `tgStoreEntry` so the two can be compared. -/
def specSlotFieldBytes : List Nat := [4, 4, 4, 4, 1, 1, 2, 8]

/-- The per-slot size the specification claims (spec section 6: "N packed
slots, each 16 bytes"). -/
def specSlotClaimedSize : Nat := 16

/-- `tgStore` (tgStore.H lines 43-153).  The entry array `_tigEntry` and
cache array `_tigCache` are modelled as total maps on identifiers (flat
zero-initialized memory), `_tigCache` holding `none` for a null pointer;
`_dataFile` maps a version to the bytes of its payload file.  `FILE*`
handles, `_tigMax` (the allocation capacity) and the `_path`/`_name`
buffers carry no observable store state and are omitted. -/
structure tgStore where
  _type : tgStoreType
  _newTigs : Bool
  _originalVersion : Nat
  _currentVersion : Nat
  _tigLen : Nat
  _tigEntry : Nat → tgStoreEntry
  _tigCache : Nat → Option tgTig
  _dataFile : Nat → List Nat

/-- Pointwise update of the entry array. -/
def updEntry (m : Nat → tgStoreEntry) (i : Nat) (e : tgStoreEntry) : Nat → tgStoreEntry :=
  fun j => if j = i then e else m j

/-- Pointwise update of the cache array. -/
def updCache (m : Nat → Option tgTig) (i : Nat) (o : Option tgTig) : Nat → Option tgTig :=
  fun j => if j = i then o else m j

/-- Pointwise update of the data files. -/
def updFile (m : Nat → List Nat) (i : Nat) (l : List Nat) : Nat → List Nat :=
  fun j => if j = i then l else m j

/- ### Scalar accessors (tgStore.H lines 156-271).
An `assert(tigID < _tigLen)` failure is modelled as `none`. -/

/-- `tgStore::numTigs` (line 82). -/
def tgStore.numTigs (s : tgStore) : Nat := s._tigLen

/-- `tgStore::isDeleted` (lines 156-160): reads the slot directly, with
NO bounds assert, so it yields a value at any identifier. -/
def tgStore.isDeleted (s : tgStore) (tigID : Nat) : Bool :=
  (s._tigEntry tigID).isDeleted

/-- `tgStore::getSourceID` (lines 162-167): asserts `tigID < _tigLen`. -/
def tgStore.getSourceID (s : tgStore) (tigID : Nat) : Option Nat :=
  if tigID < s._tigLen then some (s._tigEntry tigID).tigRecord._sourceID else none

/-- `tgStore::getSourceBgn` (lines 169-174): asserts `tigID < _tigLen`. -/
def tgStore.getSourceBgn (s : tgStore) (tigID : Nat) : Option Nat :=
  if tigID < s._tigLen then some (s._tigEntry tigID).tigRecord._sourceBgn else none

/-- `tgStore::getSourceEnd` (lines 176-181): asserts `tigID < _tigLen`. -/
def tgStore.getSourceEnd (s : tgStore) (tigID : Nat) : Option Nat :=
  if tigID < s._tigLen then some (s._tigEntry tigID).tigRecord._sourceEnd else none

/-- `tgStore::getClass` (lines 183-188): asserts `tigID < _tigLen`. -/
def tgStore.getClass (s : tgStore) (tigID : Nat) : Option tgTig_class :=
  if tigID < s._tigLen then some (s._tigEntry tigID).tigRecord._class else none

/-- `tgStore::getSuggestRepeat` (lines 190-195): asserts `tigID < _tigLen`. -/
def tgStore.getSuggestRepeat (s : tgStore) (tigID : Nat) : Option Bool :=
  if tigID < s._tigLen then some (s._tigEntry tigID).tigRecord._suggestRepeat else none

/-- `tgStore::getSuggestCircular` (lines 197-202): asserts `tigID < _tigLen`. -/
def tgStore.getSuggestCircular (s : tgStore) (tigID : Nat) : Option Bool :=
  if tigID < s._tigLen then some (s._tigEntry tigID).tigRecord._suggestCircular else none

/-- `tgStore::getNumChildren` (lines 204-208): reads the slot directly,
with NO bounds assert, so it yields a value at any identifier. -/
def tgStore.getNumChildren (s : tgStore) (tigID : Nat) : Nat :=
  (s._tigEntry tigID).tigRecord._childrenLen

/-- `tgStore::getVersion` (lines 266-271): asserts `tigID < _tigLen`. -/
def tgStore.getVersion (s : tgStore) (tigID : Nat) : Option Nat :=
  if tigID < s._tigLen then some (s._tigEntry tigID).svID else none

/- ### Scalar setters (tgStore.H lines 212-264).
Each asserts `tigID < _tigLen`, writes the slot's embedded scalar and,
when `_tigCache[tigID]` is non-null, the cached tig's field.  None of
them touches the `flushNeeded` bit. -/

/-- `tgStore::setSourceID` (lines 212-219). -/
def tgStore.setSourceID (s : tgStore) (tigID id : Nat) : Option tgStore :=
  if tigID < s._tigLen then
    some { s with
      _tigEntry := updEntry s._tigEntry tigID
        { s._tigEntry tigID with
          tigRecord := { (s._tigEntry tigID).tigRecord with _sourceID := id } }
      _tigCache := updCache s._tigCache tigID
        ((s._tigCache tigID).map fun t => { t with _sourceID := id }) }
  else none

/-- `tgStore::setSourceBgn` (lines 221-228). -/
def tgStore.setSourceBgn (s : tgStore) (tigID bgn : Nat) : Option tgStore :=
  if tigID < s._tigLen then
    some { s with
      _tigEntry := updEntry s._tigEntry tigID
        { s._tigEntry tigID with
          tigRecord := { (s._tigEntry tigID).tigRecord with _sourceBgn := bgn } }
      _tigCache := updCache s._tigCache tigID
        ((s._tigCache tigID).map fun t => { t with _sourceBgn := bgn }) }
  else none

/-- `tgStore::setSourceEnd` (lines 230-237). -/
def tgStore.setSourceEnd (s : tgStore) (tigID fin : Nat) : Option tgStore :=
  if tigID < s._tigLen then
    some { s with
      _tigEntry := updEntry s._tigEntry tigID
        { s._tigEntry tigID with
          tigRecord := { (s._tigEntry tigID).tigRecord with _sourceEnd := fin } }
      _tigCache := updCache s._tigCache tigID
        ((s._tigCache tigID).map fun t => { t with _sourceEnd := fin }) }
  else none

/-- `tgStore::setClass` (lines 239-246). -/
def tgStore.setClass (s : tgStore) (tigID : Nat) (c : tgTig_class) : Option tgStore :=
  if tigID < s._tigLen then
    some { s with
      _tigEntry := updEntry s._tigEntry tigID
        { s._tigEntry tigID with
          tigRecord := { (s._tigEntry tigID).tigRecord with _class := c } }
      _tigCache := updCache s._tigCache tigID
        ((s._tigCache tigID).map fun t => { t with _class := c }) }
  else none

/-- `tgStore::setSuggestRepeat` (lines 248-255). -/
def tgStore.setSuggestRepeat (s : tgStore) (tigID : Nat) (enable : Bool) : Option tgStore :=
  if tigID < s._tigLen then
    some { s with
      _tigEntry := updEntry s._tigEntry tigID
        { s._tigEntry tigID with
          tigRecord := { (s._tigEntry tigID).tigRecord with _suggestRepeat := enable } }
      _tigCache := updCache s._tigCache tigID
        ((s._tigCache tigID).map fun t => { t with _suggestRepeat := enable }) }
  else none

/-- `tgStore::setSuggestCircular` (lines 257-264). -/
def tgStore.setSuggestCircular (s : tgStore) (tigID : Nat) (enable : Bool) : Option tgStore :=
  if tigID < s._tigLen then
    some { s with
      _tigEntry := updEntry s._tigEntry tigID
        { s._tigEntry tigID with
          tigRecord := { (s._tigEntry tigID).tigRecord with _suggestCircular := enable } }
      _tigCache := updCache s._tigCache tigID
        ((s._tigCache tigID).map fun t => { t with _suggestCircular := enable }) }
  else none

/- ### Lifecycle operations.  The header declares these (tgStore.H lines
50-80); their bodies are in tgStore.C, which is not part of the source
fragment, so they are modelled from the specification. -/

/-- The error taxonomy of spec section 7. -/
inductive tgStoreError
  | CorruptStore
  | CorruptPayload
  | IOError
  | VersionOverflow
  | InvalidMode
  | OutOfRange
deriving DecidableEq, Repr

/-- Modelled from the spec: `tgStore::writeTigToDisk(ma, maRecord)`
(declared at tgStore.H line 118; body in tgStore.C).  Appends one record
— "4-byte length L (bytes that follow), then L bytes of codec output"
(spec section 6) — to the current version's data file, and produces the
refreshed slot: the tig's scalar header, the current version and the
offset where the record starts (truncated to the 10/40-bit slot fields),
flush-needed clear. -/
def tgStore.writeTigToDisk (s : tgStore) (t : tgTig) : tgStore × tgStoreEntry :=
  let file := s._dataFile s._currentVersion
  let bytes := tgTig.encode t
  ({ s with
     _dataFile := updFile s._dataFile s._currentVersion
       (file ++ leBytes 4 bytes.length ++ bytes) },
   { tigRecord := t.record
     unusedFlags := 0
     flushNeeded := false
     isDeleted := false
     svID := s._currentVersion % 2 ^ 10
     fileOffset := file.length % 2 ^ 40 })

/-- Modelled from the spec: `insertTig(ma, keepInCache)` (tgStore.H lines
54-57; spec section 4.4 ownership rules).  The tig is stored at its own
identifier; the identifier count grows to cover it and the deleted flag
is cleared (spec section 9: insert at a deleted id clears the flag).
With `keepInCache` the tig becomes the cached object and the slot's
flush-needed bit is set; without it the tig is encoded and appended to
the current data file at once, and any stale cached object is dropped. -/
def tgStore.insertTig (s : tgStore) (t : tgTig) (keepInCache : Bool) : tgStore :=
  let id := t._tigID
  if keepInCache then
    { s with
      _newTigs := true
      _tigLen := max s._tigLen (id + 1)
      _tigEntry := updEntry s._tigEntry id
        { tigRecord := t.record
          unusedFlags := 0
          flushNeeded := true
          isDeleted := false
          svID := s._currentVersion % 2 ^ 10
          fileOffset := (s._tigEntry id).fileOffset }
      _tigCache := updCache s._tigCache id (some t) }
  else
    let we := s.writeTigToDisk t
    { we.1 with
      _newTigs := true
      _tigLen := max s._tigLen (id + 1)
      _tigEntry := updEntry s._tigEntry id we.2
      _tigCache := updCache s._tigCache id none }

/-- Modelled from the spec: `deleteTig(tigID)` — "removes the tig from
the cache, and marks it as deleted in the store" (tgStore.H lines 59-61;
spec section 4.4: "marks slot deleted, unloads any cached object without
persisting").  The dropped cache pointer clears flush-needed, keeping the
"flush-needed implies cached" invariant of spec section 3.  An
out-of-range identifier is an assert failure, modelled as `none`. -/
def tgStore.deleteTig (s : tgStore) (tigID : Nat) : Option tgStore :=
  if tigID < s._tigLen then
    some { s with
      _tigEntry := updEntry s._tigEntry tigID
        { s._tigEntry tigID with isDeleted := true, flushNeeded := false }
      _tigCache := updCache s._tigCache tigID none }
  else none

/-- Modelled from the spec: read and decode the record a slot points at
(spec sections 4.2, 6): seek to the slot's (version, offset), read the
4-byte length prefix, decode that many bytes. -/
def tgStore.readTigFromDisk (s : tgStore) (tigID : Nat) : Option tgTig :=
  let entry := s._tigEntry tigID
  let rest := (s._dataFile entry.svID).drop entry.fileOffset
  tgTig.decode ((rest.drop 4).take (leVal (rest.take 4)))

/-- Modelled from the spec: `loadTig(tigID)` (tgStore.H lines 63-66; spec
section 4.4): the cached object if one is present; otherwise read, decode
and install in the cache.  A deleted or out-of-range tig yields no
object. -/
def tgStore.loadTig (s : tgStore) (tigID : Nat) : tgStore × Option tgTig :=
  if tigID < s._tigLen ∧ (s._tigEntry tigID).isDeleted = false then
    match s._tigCache tigID with
    | some t => (s, some t)
    | none =>
        match s.readTigFromDisk tigID with
        | none => (s, none)
        | some t => ({ s with _tigCache := updCache s._tigCache tigID (some t) }, some t)
  else (s, none)

/-- Modelled from the spec: `unloadTig(tigID, discardChanges)` (tgStore.H
line 67; spec section 4.4): "if cached and flush-needed is set AND
discard is false, re-encode and append to the writable data file,
updating the slot's (version, offset).  Then drop the cached object.  If
discard is true, drop without persisting." -/
def tgStore.unloadTig (s : tgStore) (tigID : Nat) (discardChanges : Bool) : tgStore :=
  match s._tigCache tigID with
  | none => s
  | some t =>
      if (s._tigEntry tigID).flushNeeded = true ∧ discardChanges = false then
        let we := s.writeTigToDisk t
        { we.1 with
          _tigEntry := updEntry s._tigEntry tigID we.2
          _tigCache := updCache s._tigCache tigID none }
      else
        { s with _tigCache := updCache s._tigCache tigID none }

/-- Modelled from the spec: the header scalars of a slot overlaid on a
decoded payload, so that a copied tig reports the slot's embedded scalar
attributes (spec section 3 invariant "payload ... whose header equals the
slot's embedded scalar attributes"; section 8 law 2). -/
def tgTigRecord.overlay (r : tgTigRecord) (t : tgTig) : tgTig :=
  { t with
    _sourceID := r._sourceID
    _sourceBgn := r._sourceBgn
    _sourceEnd := r._sourceEnd
    _class := r._class
    _suggestRepeat := r._suggestRepeat
    _suggestCircular := r._suggestCircular }

/-- Modelled from the spec: `copyTig(tigID, ma)` (tgStore.H lines 64-69;
spec section 4.4): read and decode into a caller-owned tig without
caching (the cached object is copied when one is present); the slot's
scalar attributes are what the copy reports (spec section 8, law 2).
Deleted or out-of-range identifiers yield no tig (spec scenario S3). -/
def tgStore.copyTig (s : tgStore) (tigID : Nat) : Option tgTig :=
  if tigID < s._tigLen ∧ (s._tigEntry tigID).isDeleted = false then
    ((s._tigCache tigID).orElse fun _ => s.readTigFromDisk tigID).map
      ((s._tigEntry tigID).tigRecord.overlay)
  else none

/-- Modelled from the spec: `flushDisk(tigID)` (tgStore.H line 73; spec
section 4.4): "persist that one cached tig if flush-needed; clear the
flag".  The cached object stays cached. -/
def tgStore.flushDisk (s : tgStore) (tigID : Nat) : tgStore :=
  match s._tigCache tigID with
  | none => s
  | some t =>
      if (s._tigEntry tigID).flushNeeded = true then
        let we := s.writeTigToDisk t
        { we.1 with _tigEntry := updEntry s._tigEntry tigID we.2 }
      else s

/-- Modelled from the spec: `flushDisk()` (tgStore.H line 74): "iterate
all identifiers, persist those with flush-needed". -/
def tgStore.flushDiskAll (s : tgStore) : tgStore :=
  (List.range s._tigLen).foldl (fun st i => st.flushDisk i) s

/-- `flushCache(tigID, discard)` (tgStore.H line 79): the header defines
it as exactly a call to `unloadTig(tigID, discard)`. -/
def tgStore.flushCache (s : tgStore) (tigID : Nat) (discard : Bool) : tgStore :=
  s.unloadTig tigID discard

/-- Modelled from the spec: `flushCache()` (tgStore.H line 80; spec
section 4.4): a prior full `flushDisk`, then unload everything. -/
def tgStore.flushCacheAll (s : tgStore) : tgStore :=
  let s2 := s.flushDiskAll
  (List.range s2._tigLen).foldl (fun st i => st.unloadTig i false) s2

/-- Modelled from the spec: `nextVersion()` (tgStore.H lines 50-52; spec
section 4.4 "Version transition"): preconditions are a writable store and
a current version strictly below 1023 (the slot version field is 10
bits); violations surface `InvalidMode` / `VersionOverflow` instead of
wrapping.  On success, all dirty cached tigs are flushed into the current
data file and the current version advances by one.  (The index-file dump
is I/O with no further observable store state and is not modelled.) -/
def tgStore.nextVersion (s : tgStore) : Except tgStoreError tgStore :=
  if s._type.writable = false then .error .InvalidMode
  else if s._currentVersion < 1023 then
    let s2 := s.flushDiskAll
    .ok { s2 with _currentVersion := s2._currentVersion + 1 }
  else .error .VersionOverflow

/- ### Operation sequences over one version session (for the temporal
claims of spec section 8) -/

/-- One public mutating operation of the store API (spec section 6,
"Public API surface"), within a single version session. -/
inductive tgStoreOp
  | insert (t : tgTig) (keepInCache : Bool)
  | delete (tigID : Nat)
  | load (tigID : Nat)
  | unload (tigID : Nat) (discard : Bool)
  | flushDisk (tigID : Nat)
  | flushDiskAll
  | flushCache (tigID : Nat) (discard : Bool)
  | flushCacheAll
  | setSourceID (tigID v : Nat)
  | setSourceBgn (tigID v : Nat)
  | setSourceEnd (tigID v : Nat)
  | setClass (tigID : Nat) (c : tgTig_class)
  | setSuggestRepeat (tigID : Nat) (b : Bool)
  | setSuggestCircular (tigID : Nat) (b : Bool)
deriving DecidableEq, Repr

/-- Whether an operation is an insert at the given identifier (the tig
carries its own identifier). -/
def tgStoreOp.isInsertAt (tigID : Nat) : tgStoreOp → Bool
  | .insert t _ => t._tigID = tigID
  | _ => false

/-- Apply one operation.  An operation whose `assert` fails aborts the
program and leaves nothing to observe, so it is modelled as the unchanged
store. -/
def tgStore.applyOp (s : tgStore) : tgStoreOp → tgStore
  | .insert t k => s.insertTig t k
  | .delete i => (s.deleteTig i).getD s
  | .load i => (s.loadTig i).1
  | .unload i d => s.unloadTig i d
  | .flushDisk i => s.flushDisk i
  | .flushDiskAll => s.flushDiskAll
  | .flushCache i d => s.flushCache i d
  | .flushCacheAll => s.flushCacheAll
  | .setSourceID i v => (s.setSourceID i v).getD s
  | .setSourceBgn i v => (s.setSourceBgn i v).getD s
  | .setSourceEnd i v => (s.setSourceEnd i v).getD s
  | .setClass i c => (s.setClass i c).getD s
  | .setSuggestRepeat i b => (s.setSuggestRepeat i b).getD s
  | .setSuggestCircular i b => (s.setSuggestCircular i b).getD s

/-- Apply a sequence of operations in program order. -/
def tgStore.applyOps (s : tgStore) (ops : List tgStoreOp) : tgStore :=
  ops.foldl tgStore.applyOp s

/- ### The "cached copy agrees with slot" invariant (spec section 4.3) -/

/-- A slot's embedded scalar attributes agree with a tig object. -/
def tgTigRecord.agrees (r : tgTigRecord) (t : tgTig) : Prop :=
  r._sourceID = t._sourceID ∧ r._sourceBgn = t._sourceBgn ∧
  r._sourceEnd = t._sourceEnd ∧ r._class = t._class ∧
  r._suggestRepeat = t._suggestRepeat ∧ r._suggestCircular = t._suggestCircular

/-- Every cached tig agrees with its slot's embedded scalars. -/
def tgStore.cacheAgrees (s : tgStore) : Prop :=
  ∀ i t, s._tigCache i = some t → (s._tigEntry i).tigRecord.agrees t

/- ### Concrete stores for witnesses and counterexamples -/

/-- The all-default tig with identifier 0 and no children. -/
def tigZero : tgTig := ⟨0, 0, 0, 0, 0, false, false, []⟩

/-- A store with no tigs at all. -/
def storeNil : tgStore :=
  { _type := .tgStoreReadOnly
    _newTigs := false
    _originalVersion := 1
    _currentVersion := 1
    _tigLen := 0
    _tigEntry := fun _ => tgStoreEntry.zero
    _tigCache := fun _ => none
    _dataFile := fun _ => [] }

/-- A writable store holding one tig, cached at identifier 0, its slot
all zero (in particular flush-needed clear). -/
def storeOne : tgStore :=
  { _type := .tgStoreWrite
    _newTigs := false
    _originalVersion := 1
    _currentVersion := 1
    _tigLen := 1
    _tigEntry := fun _ => tgStoreEntry.zero
    _tigCache := fun i => if i = 0 then some tigZero else none
    _dataFile := fun _ => [] }

/-- A writable store sitting at the last representable version, 1023. -/
def storeAtMaxVersion : tgStore :=
  { _type := .tgStoreWrite
    _newTigs := false
    _originalVersion := 1023
    _currentVersion := 1023
    _tigLen := 0
    _tigEntry := fun _ => tgStoreEntry.zero
    _tigCache := fun _ => none
    _dataFile := fun _ => [] }

/- ### Claim theorems -/

/-- C8: for every identifier and every discard flag, `flushCache(id,
discard)` is extensionally equal to `unloadTig(id, discard)`: the header
(tgStore.H line 79) defines the former as exactly a call to the latter,
so they produce the same store state and effects. -/
theorem flushCache_eq_unloadTig (s : tgStore) (tigID : Nat) (discard : Bool) :
    tgStore.flushCache s tigID discard = tgStore.unloadTig s tigID discard := rfl

/-- C9: a default-constructed `overlapPlacement` (from a read identifier
alone) has `aligned = 0`, so the unguarded division in `erate()` has a
zero divisor on it; the divisor is nonzero exactly under the precondition
`aligned > 0`. -/
theorem erate_zero_divisor_on_default (fi : Nat) (op : overlapPlacement)
    (h : 0 < op.aligned) :
    (overlapPlacement.ofFrg fi).aligned = 0 ∧
    (overlapPlacement.ofFrg fi).erateDivisor = 0 ∧
    overlapPlacement.erateDivisor op ≠ 0 := by
  refine ⟨rfl, by simp [overlapPlacement.erateDivisor, overlapPlacement.ofFrg], ?_⟩
  simp only [overlapPlacement.erateDivisor, ne_eq, Nat.cast_eq_zero]
  omega

theorem erate_zero_divisor_on_default_witness :
    (overlapPlacement.ofFrg 7).aligned = 0 ∧
    (overlapPlacement.ofFrg 7).erateDivisor = 0 ∧
    overlapPlacement.erateDivisor { overlapPlacement.ofFrg 0 with aligned := 1 } ≠ 0 :=
  erate_zero_divisor_on_default 7 { overlapPlacement.ofFrg 0 with aligned := 1 }
    Nat.one_pos

/-- C10: `overlapPlacement_byLocation` orders by `tigID`, then
orientation, then `position`, and inspects no other field: two placements
that agree on `tigID` and `position` (in particular, placements differing
only in `clusterID`, `refID` or `frgID`) compare `false` in both argument
orders, and replacing either argument by any placement with the same
`tigID` and `position` leaves the result unchanged — even though the
comment above the comparator documents its sort key as starting with
`clusterID`. -/
theorem byLocation_ignores_clusterID (A B C D : overlapPlacement)
    (h1 : A.tigID = B.tigID) (h2 : A.position = B.position)
    (h3 : C.tigID = A.tigID) (h4 : C.position = A.position)
    (h5 : D.tigID = B.tigID) (h6 : D.position = B.position) :
    overlapPlacement_byLocation A B = false ∧
    overlapPlacement_byLocation B A = false ∧
    overlapPlacement_byLocation C D = overlapPlacement_byLocation A B := by
  refine ⟨?_, ?_, ?_⟩
  · simp [overlapPlacement_byLocation, h1, h2, SeqInterval.lt_irrefl]
  · simp [overlapPlacement_byLocation, h1.symm, h2.symm, SeqInterval.lt_irrefl]
  · simp only [overlapPlacement_byLocation, h3, h4, h5, h6]

/-- Two placements that differ only in `clusterID` and `refID`. -/
def opLocA : overlapPlacement := overlapPlacement.ofFrg 1

def opLocB : overlapPlacement :=
  { overlapPlacement.ofFrg 1 with clusterID := 5, refID := 9 }

theorem byLocation_ignores_clusterID_witness :
    overlapPlacement_byLocation opLocA opLocB = false ∧
    overlapPlacement_byLocation opLocB opLocA = false :=
  ⟨(byLocation_ignores_clusterID opLocA opLocB opLocA opLocB
      rfl rfl rfl rfl rfl rfl).1,
   (byLocation_ignores_clusterID opLocA opLocB opLocA opLocB
      rfl rfl rfl rfl rfl rfl).2.1⟩

/-- C1 counterexample: on a concrete store whose tig 0 is cached and
whose slot has flush-needed clear, `setSourceID(0, 5)` succeeds and
leaves the flush-needed bit clear — the inline setters of tgStore.H
(lines 212-264) never touch `flushNeeded`, contrary to the claimed
side effect. -/
theorem setter_leaves_flushNeeded_clear_cex :
    (storeOne._tigCache 0).isSome = true ∧
    (storeOne._tigEntry 0).flushNeeded = false ∧
    (tgStore.setSourceID storeOne 0 5).map (fun s => (s._tigEntry 0).flushNeeded) =
      some false := by
  refine ⟨rfl, rfl, rfl⟩

/-- C1 amended: every scalar setter of tgStore.H (lines 212-264) leaves
the `flushNeeded` bit of every slot exactly as it was (whether or not a
tig is cached); a failed assert (out-of-range id, `none` result) leaves
the store unchanged. -/
theorem setters_leave_flushNeeded_unchanged (s : tgStore) (tigID v : Nat)
    (c : tgTig_class) (b : Bool) (i : Nat) :
    ((((tgStore.setSourceID s tigID v).getD s)._tigEntry i).flushNeeded =
      ((s._tigEntry i)).flushNeeded) ∧
    ((((tgStore.setSourceBgn s tigID v).getD s)._tigEntry i).flushNeeded =
      ((s._tigEntry i)).flushNeeded) ∧
    ((((tgStore.setSourceEnd s tigID v).getD s)._tigEntry i).flushNeeded =
      ((s._tigEntry i)).flushNeeded) ∧
    ((((tgStore.setClass s tigID c).getD s)._tigEntry i).flushNeeded =
      ((s._tigEntry i)).flushNeeded) ∧
    ((((tgStore.setSuggestRepeat s tigID b).getD s)._tigEntry i).flushNeeded =
      ((s._tigEntry i)).flushNeeded) ∧
    ((((tgStore.setSuggestCircular s tigID b).getD s)._tigEntry i).flushNeeded =
      ((s._tigEntry i)).flushNeeded) := by
  refine ⟨?_, ?_, ?_, ?_, ?_, ?_⟩ <;>
  · by_cases h : tigID < s._tigLen
    · simp only [tgStore.setSourceID, tgStore.setSourceBgn, tgStore.setSourceEnd,
        tgStore.setClass, tgStore.setSuggestRepeat, tgStore.setSuggestCircular,
        if_pos h, Option.getD_some, updEntry]
      by_cases hi : i = tigID
      · subst hi; simp
      · simp [hi]
    · simp only [tgStore.setSourceID, tgStore.setSourceBgn, tgStore.setSourceEnd,
        tgStore.setClass, tgStore.setSuggestRepeat, tgStore.setSuggestCircular,
        if_neg h, Option.getD_none]

/-- C2 counterexample: on a store with no tigs, `isDeleted(0)` and
`getNumChildren(0)` (tgStore.H lines 156-160 and 204-208) carry NO
`assert(tigID < _tigLen)` and return a value for the out-of-range
identifier 0, while the asserting accessors (for example `getSourceID`)
do abort — so not every accessor aborts on an out-of-range identifier. -/
theorem isDeleted_unchecked_out_of_range_cex :
    storeNil._tigLen = 0 ∧
    tgStore.isDeleted storeNil 0 = false ∧
    tgStore.getNumChildren storeNil 0 = 0 ∧
    tgStore.getSourceID storeNil 0 = none := by
  refine ⟨rfl, rfl, rfl, rfl⟩

/-- C2 amended: with an identifier at or beyond the current count, every
scalar getter and setter and `getVersion` asserts (aborts, modelled as
`none`), but `isDeleted` and `getNumChildren` perform no bounds check at
all and simply read the entry at that index. -/
theorem accessors_assert_in_range (s : tgStore) (tigID v : Nat)
    (c : tgTig_class) (b : Bool) (h : s._tigLen ≤ tigID) :
    tgStore.getSourceID s tigID = none ∧
    tgStore.getSourceBgn s tigID = none ∧
    tgStore.getSourceEnd s tigID = none ∧
    tgStore.getClass s tigID = none ∧
    tgStore.getSuggestRepeat s tigID = none ∧
    tgStore.getSuggestCircular s tigID = none ∧
    tgStore.getVersion s tigID = none ∧
    tgStore.setSourceID s tigID v = none ∧
    tgStore.setSourceBgn s tigID v = none ∧
    tgStore.setSourceEnd s tigID v = none ∧
    tgStore.setClass s tigID c = none ∧
    tgStore.setSuggestRepeat s tigID b = none ∧
    tgStore.setSuggestCircular s tigID b = none ∧
    tgStore.isDeleted s tigID = (s._tigEntry tigID).isDeleted ∧
    tgStore.getNumChildren s tigID = (s._tigEntry tigID).tigRecord._childrenLen := by
  have hn : ¬ tigID < s._tigLen := not_lt.mpr h
  simp only [tgStore.getSourceID, tgStore.getSourceBgn, tgStore.getSourceEnd,
    tgStore.getClass, tgStore.getSuggestRepeat, tgStore.getSuggestCircular,
    tgStore.getVersion, tgStore.setSourceID, tgStore.setSourceBgn,
    tgStore.setSourceEnd, tgStore.setClass, tgStore.setSuggestRepeat,
    tgStore.setSuggestCircular, tgStore.isDeleted, tgStore.getNumChildren,
    if_neg hn]
  simp

theorem accessors_assert_in_range_witness :
    storeNil._tigLen ≤ 0 ∧
    tgStore.getSourceID storeNil 0 = none ∧
    tgStore.isDeleted storeNil 0 = (storeNil._tigEntry 0).isDeleted :=
  ⟨Nat.le_refl 0,
   (accessors_assert_in_range storeNil 0 5 3 true (Nat.le_refl 0)).1,
   (accessors_assert_in_range storeNil 0 5 3 true
      (Nat.le_refl 0)).2.2.2.2.2.2.2.2.2.2.2.2.2.1⟩

/-- C3 counterexample: the slot layout the claim states is impossible on
its face: the enumerated fields (4+4+4+4 byte scalars, 1-byte class,
1-byte flags, 2-byte padding, 8-byte packed word) sum to 28 bytes, not
the claimed 16. -/
theorem spec_slot_layout_size_cex :
    specSlotFieldBytes.sum = 28 ∧ specSlotClaimedSize = 16 ∧
    specSlotFieldBytes.sum ≠ specSlotClaimedSize := by decide

/-- C3 amended: each metadata slot is the embedded record (the
enumerated byte fields, summing to 28 bytes with the packed word) plus
the 8-byte packed word of tgStore.H lines 111-115, which holds — in
declaration order — 12 unused bits, the flush-needed bit, the deleted
bit, a 10-bit version and a 40-bit offset (so the non-version,
non-offset bits are 14, but they include the flush-needed and deleted
bits rather than being mere padding, and the deleted bit lives in the
packed word, not in a flag byte).  Each field is recoverable from the
word at its position, and the word fits in 64 bits. -/
theorem slot_packed_word_fields (e : tgStoreEntry) :
    specSlotFieldBytes.sum = 28 ∧
    12 + 1 + 1 + 10 + 40 = 64 ∧
    e.packedWord < 2 ^ 64 ∧
    e.packedWord % 2 ^ 12 = e.unusedFlags % 2 ^ 12 ∧
    e.packedWord / 2 ^ 12 % 2 = (if e.flushNeeded then 1 else 0) ∧
    e.packedWord / 2 ^ 13 % 2 = (if e.isDeleted then 1 else 0) ∧
    e.packedWord / 2 ^ 14 % 2 ^ 10 = e.svID % 2 ^ 10 ∧
    e.packedWord / 2 ^ 24 = e.fileOffset % 2 ^ 40 := by
  refine ⟨by decide, by decide, ?_, ?_, ?_, ?_, ?_, ?_⟩ <;>
  · unfold tgStoreEntry.packedWord
    cases hf : e.flushNeeded <;> cases hd : e.isDeleted <;> simp <;> omega

/- ### C4: setters preserve the cache/slot agreement -/

theorem agrees_update_compat (fr : tgTigRecord → tgTigRecord) (ft : tgTig → tgTig)
    (hcompat : ∀ r t, r.agrees t → (fr r).agrees (ft t))
    (s : tgStore) (tigID : Nat) (h : s.cacheAgrees) :
    tgStore.cacheAgrees
      { s with
        _tigEntry := updEntry s._tigEntry tigID
          { s._tigEntry tigID with tigRecord := fr (s._tigEntry tigID).tigRecord }
        _tigCache := updCache s._tigCache tigID ((s._tigCache tigID).map ft) } := by
  intro i t hit
  by_cases hi : i = tigID
  · subst hi
    simp only [updEntry, updCache, if_pos rfl] at hit ⊢
    cases hc : s._tigCache i with
    | none => rw [hc] at hit; exact absurd hit (by simp)
    | some t0 =>
        rw [hc] at hit
        simp only [Option.map_some'] at hit
        cases hit
        exact hcompat _ _ (h i t0 hc)
  · simp only [updEntry, updCache, if_neg hi] at hit ⊢
    exact h i t hit

/-- C4: every scalar setter preserves the "cached copy agrees with slot"
invariant: if every cached tig agrees with its slot's embedded scalars
before the call, it still does after (and in particular the field just
set is equal in the cached object and the slot).  A failed assert leaves
the store unchanged. -/
theorem setters_preserve_cache_agreement (s : tgStore) (tigID v : Nat)
    (c : tgTig_class) (b : Bool) (h : s.cacheAgrees) :
    ((tgStore.setSourceID s tigID v).getD s).cacheAgrees ∧
    ((tgStore.setSourceBgn s tigID v).getD s).cacheAgrees ∧
    ((tgStore.setSourceEnd s tigID v).getD s).cacheAgrees ∧
    ((tgStore.setClass s tigID c).getD s).cacheAgrees ∧
    ((tgStore.setSuggestRepeat s tigID b).getD s).cacheAgrees ∧
    ((tgStore.setSuggestCircular s tigID b).getD s).cacheAgrees := by
  by_cases hlt : tigID < s._tigLen
  · refine ⟨?_, ?_, ?_, ?_, ?_, ?_⟩
    · simp only [tgStore.setSourceID, if_pos hlt, Option.getD_some]
      exact agrees_update_compat
        (fun r => { r with _sourceID := v }) (fun t => { t with _sourceID := v })
        (fun r t ha => ⟨rfl, ha.2.1, ha.2.2.1, ha.2.2.2.1, ha.2.2.2.2.1, ha.2.2.2.2.2⟩)
        s tigID h
    · simp only [tgStore.setSourceBgn, if_pos hlt, Option.getD_some]
      exact agrees_update_compat
        (fun r => { r with _sourceBgn := v }) (fun t => { t with _sourceBgn := v })
        (fun r t ha => ⟨ha.1, rfl, ha.2.2.1, ha.2.2.2.1, ha.2.2.2.2.1, ha.2.2.2.2.2⟩)
        s tigID h
    · simp only [tgStore.setSourceEnd, if_pos hlt, Option.getD_some]
      exact agrees_update_compat
        (fun r => { r with _sourceEnd := v }) (fun t => { t with _sourceEnd := v })
        (fun r t ha => ⟨ha.1, ha.2.1, rfl, ha.2.2.2.1, ha.2.2.2.2.1, ha.2.2.2.2.2⟩)
        s tigID h
    · simp only [tgStore.setClass, if_pos hlt, Option.getD_some]
      exact agrees_update_compat
        (fun r => { r with _class := c }) (fun t => { t with _class := c })
        (fun r t ha => ⟨ha.1, ha.2.1, ha.2.2.1, rfl, ha.2.2.2.2.1, ha.2.2.2.2.2⟩)
        s tigID h
    · simp only [tgStore.setSuggestRepeat, if_pos hlt, Option.getD_some]
      exact agrees_update_compat
        (fun r => { r with _suggestRepeat := b }) (fun t => { t with _suggestRepeat := b })
        (fun r t ha => ⟨ha.1, ha.2.1, ha.2.2.1, ha.2.2.2.1, rfl, ha.2.2.2.2.2⟩)
        s tigID h
    · simp only [tgStore.setSuggestCircular, if_pos hlt, Option.getD_some]
      exact agrees_update_compat
        (fun r => { r with _suggestCircular := b }) (fun t => { t with _suggestCircular := b })
        (fun r t ha => ⟨ha.1, ha.2.1, ha.2.2.1, ha.2.2.2.1, ha.2.2.2.2.1, rfl⟩)
        s tigID h
  · simp only [tgStore.setSourceID, tgStore.setSourceBgn, tgStore.setSourceEnd,
      tgStore.setClass, tgStore.setSuggestRepeat, tgStore.setSuggestCircular,
      if_neg hlt, Option.getD_none]
    exact ⟨h, h, h, h, h, h⟩

theorem storeOne_cacheAgrees : storeOne.cacheAgrees := by
  intro i t hit
  by_cases hi : i = 0
  · subst hi
    have h2 : some tigZero = some t := hit
    cases h2
    exact ⟨rfl, rfl, rfl, rfl, rfl, rfl⟩
  · exact absurd hit (by simp [storeOne, hi])

theorem setters_preserve_cache_agreement_witness :
    ((((tgStore.setClass storeOne 0 3).getD storeOne)._tigEntry 0)).tigRecord.agrees
      { tigZero with _class := 3 } :=
  (setters_preserve_cache_agreement storeOne 0 5 3 true
    storeOne_cacheAgrees).2.2.2.1 0 { tigZero with _class := 3 } rfl

/- ### C7: next-version preconditions -/

theorem flushDisk_currentVersion (s : tgStore) (i : Nat) :
    (tgStore.flushDisk s i)._currentVersion = s._currentVersion := by
  unfold tgStore.flushDisk
  cases s._tigCache i with
  | none => rfl
  | some t =>
      by_cases hf : (s._tigEntry i).flushNeeded = true
      · simp [hf, tgStore.writeTigToDisk]
      · simp [hf]

theorem flushDiskAll_currentVersion (s : tgStore) :
    (tgStore.flushDiskAll s)._currentVersion = s._currentVersion := by
  unfold tgStore.flushDiskAll
  generalize List.range s._tigLen = l
  induction l generalizing s with
  | nil => rfl
  | cons a l ih =>
      simp only [List.foldl_cons]
      rw [ih, flushDisk_currentVersion]

/-- C7: `nextVersion` requires a writable store and a current version
strictly below 1023 (the slot version field is 10 bits): a non-writable
store surfaces `InvalidMode`, a version at or past 1023 surfaces
`VersionOverflow` (no silent wrap), and when the preconditions hold the
current version advances by exactly one. -/
theorem nextVersion_guards (s : tgStore) :
    (s._type.writable = false → tgStore.nextVersion s = .error .InvalidMode) ∧
    (s._type.writable = true → 1023 ≤ s._currentVersion →
      tgStore.nextVersion s = .error .VersionOverflow) ∧
    (s._type.writable = true → s._currentVersion < 1023 →
      (tgStore.nextVersion s).map (fun s2 => s2._currentVersion) =
        .ok (s._currentVersion + 1)) := by
  refine ⟨fun hw => ?_, fun hw hv => ?_, fun hw hv => ?_⟩
  · simp [tgStore.nextVersion, hw]
  · simp [tgStore.nextVersion, hw, not_lt.mpr hv]
  · simp [tgStore.nextVersion, hw, hv, Except.map, flushDiskAll_currentVersion]

theorem nextVersion_guards_witness :
    tgStore.nextVersion storeAtMaxVersion = .error .VersionOverflow :=
  (nextVersion_guards storeAtMaxVersion).2.1 rfl (Nat.le_refl 1023)

/- ### C6: delete monotonicity within a session -/

theorem setterState_pres (s : tgStore) (i : Nat) (fr : tgTigRecord → tgTigRecord)
    (ft : tgTig → tgTig) (id : Nat)
    (h1 : (s._tigEntry id).isDeleted = true) (h2 : s._tigCache id = none) :
    (({ s with
        _tigEntry := updEntry s._tigEntry i
          { s._tigEntry i with tigRecord := fr (s._tigEntry i).tigRecord }
        _tigCache := updCache s._tigCache i
          ((s._tigCache i).map ft) } : tgStore)._tigEntry id).isDeleted = true ∧
    ({ s with
        _tigEntry := updEntry s._tigEntry i
          { s._tigEntry i with tigRecord := fr (s._tigEntry i).tigRecord }
        _tigCache := updCache s._tigCache i
          ((s._tigCache i).map ft) } : tgStore)._tigCache id = none := by
  by_cases hi : id = i
  · subst hi
    exact ⟨by simp [updEntry, h1], by simp [updCache, h2]⟩
  · exact ⟨by simp [updEntry, hi, h1], by simp [updCache, hi, h2]⟩

theorem flushDisk_pres (s : tgStore) (id i : Nat)
    (h1 : (s._tigEntry id).isDeleted = true) (h2 : s._tigCache id = none) :
    ((tgStore.flushDisk s i)._tigEntry id).isDeleted = true ∧
    (tgStore.flushDisk s i)._tigCache id = none := by
  unfold tgStore.flushDisk
  by_cases hi : i = id
  · subst hi; rw [h2]; exact ⟨h1, h2⟩
  · have hid : ¬ (id = i) := fun h => hi h.symm
    cases hc : s._tigCache i with
    | none => exact ⟨h1, h2⟩
    | some t =>
        by_cases hf : (s._tigEntry i).flushNeeded = true
        · simp [hf, tgStore.writeTigToDisk, updEntry, hid, h1, h2]
        · simp [hf, h1, h2]

theorem unloadTig_pres (s : tgStore) (id i : Nat) (d : Bool)
    (h1 : (s._tigEntry id).isDeleted = true) (h2 : s._tigCache id = none) :
    ((tgStore.unloadTig s i d)._tigEntry id).isDeleted = true ∧
    (tgStore.unloadTig s i d)._tigCache id = none := by
  unfold tgStore.unloadTig
  by_cases hi : i = id
  · subst hi; rw [h2]; exact ⟨h1, h2⟩
  · have hid : ¬ (id = i) := fun h => hi h.symm
    cases hc : s._tigCache i with
    | none => exact ⟨h1, h2⟩
    | some t =>
        by_cases hf : (s._tigEntry i).flushNeeded = true ∧ d = false
        · simp [hf, tgStore.writeTigToDisk, updEntry, updCache, hid, h1, h2]
        · simp [hf, updCache, hid, h1, h2]

theorem loadTig_pres (s : tgStore) (id i : Nat)
    (h1 : (s._tigEntry id).isDeleted = true) (h2 : s._tigCache id = none) :
    (((tgStore.loadTig s i).1)._tigEntry id).isDeleted = true ∧
    ((tgStore.loadTig s i).1)._tigCache id = none := by
  unfold tgStore.loadTig
  by_cases hg : i < s._tigLen ∧ (s._tigEntry i).isDeleted = false
  · rw [if_pos hg]
    have hi : ¬ (id = i) := by
      intro h
      rw [h] at h1
      rw [h1] at hg
      exact absurd hg.2 (by simp)
    cases hc : s._tigCache i with
    | some t => exact ⟨h1, h2⟩
    | none =>
        cases hr : s.readTigFromDisk i with
        | none => exact ⟨h1, h2⟩
        | some t => exact ⟨h1, by simp [updCache, hi, h2]⟩
  · rw [if_neg hg]; exact ⟨h1, h2⟩

theorem insertTig_pres (s : tgStore) (id : Nat) (t : tgTig) (k : Bool)
    (h1 : (s._tigEntry id).isDeleted = true) (h2 : s._tigCache id = none)
    (hne : t._tigID ≠ id) :
    ((tgStore.insertTig s t k)._tigEntry id).isDeleted = true ∧
    (tgStore.insertTig s t k)._tigCache id = none := by
  unfold tgStore.insertTig
  have hid : ¬ (id = t._tigID) := fun h => hne h.symm
  cases k with
  | true => exact ⟨by simp [updEntry, hid, h1], by simp [updCache, hid, h2]⟩
  | false =>
      refine ⟨?_, ?_⟩ <;>
        simp [tgStore.writeTigToDisk, updEntry, updCache, hid, h1, h2]

theorem deleteTig_pres (s : tgStore) (id i : Nat)
    (h1 : (s._tigEntry id).isDeleted = true) (h2 : s._tigCache id = none) :
    ((((tgStore.deleteTig s i).getD s))._tigEntry id).isDeleted = true ∧
    ((tgStore.deleteTig s i).getD s)._tigCache id = none := by
  unfold tgStore.deleteTig
  by_cases hl : i < s._tigLen
  · rw [if_pos hl]
    simp only [Option.getD_some]
    by_cases hi : id = i
    · subst hi
      exact ⟨by simp [updEntry], by simp [updCache]⟩
    · exact ⟨by simp [updEntry, hi, h1], by simp [updCache, hi, h2]⟩
  · rw [if_neg hl]; exact ⟨h1, h2⟩

theorem foldlNat_pres (P : tgStore → Prop) (f : tgStore → Nat → tgStore)
    (hf : ∀ s i, P s → P (f s i)) (l : List Nat) (s : tgStore) (hs : P s) :
    P (l.foldl f s) := by
  induction l generalizing s with
  | nil => exact hs
  | cons a l ih => exact ih _ (hf s a hs)

theorem flushDiskAll_pres (s : tgStore) (id : Nat)
    (h1 : (s._tigEntry id).isDeleted = true) (h2 : s._tigCache id = none) :
    ((tgStore.flushDiskAll s)._tigEntry id).isDeleted = true ∧
    (tgStore.flushDiskAll s)._tigCache id = none := by
  unfold tgStore.flushDiskAll
  exact foldlNat_pres
    (fun st => (st._tigEntry id).isDeleted = true ∧ st._tigCache id = none)
    (fun st i => st.flushDisk i)
    (fun st i h => flushDisk_pres st id i h.1 h.2)
    (List.range s._tigLen) s ⟨h1, h2⟩

theorem flushCacheAll_pres (s : tgStore) (id : Nat)
    (h1 : (s._tigEntry id).isDeleted = true) (h2 : s._tigCache id = none) :
    ((tgStore.flushCacheAll s)._tigEntry id).isDeleted = true ∧
    (tgStore.flushCacheAll s)._tigCache id = none := by
  unfold tgStore.flushCacheAll
  have hall := flushDiskAll_pres s id h1 h2
  exact foldlNat_pres
    (fun st => (st._tigEntry id).isDeleted = true ∧ st._tigCache id = none)
    (fun st i => st.unloadTig i false)
    (fun st i h => unloadTig_pres st id i false h.1 h.2)
    (List.range (tgStore.flushDiskAll s)._tigLen) (tgStore.flushDiskAll s) hall

theorem applyOp_pres (s : tgStore) (id : Nat) (op : tgStoreOp)
    (h1 : (s._tigEntry id).isDeleted = true) (h2 : s._tigCache id = none)
    (hop : op.isInsertAt id = false) :
    ((tgStore.applyOp s op)._tigEntry id).isDeleted = true ∧
    (tgStore.applyOp s op)._tigCache id = none := by
  cases op with
  | insert t k =>
      have hne : t._tigID ≠ id := by simpa [tgStoreOp.isInsertAt] using hop
      exact insertTig_pres s id t k h1 h2 hne
  | delete i => exact deleteTig_pres s id i h1 h2
  | load i => exact loadTig_pres s id i h1 h2
  | unload i d => exact unloadTig_pres s id i d h1 h2
  | flushDisk i => exact flushDisk_pres s id i h1 h2
  | flushDiskAll => exact flushDiskAll_pres s id h1 h2
  | flushCache i d => exact unloadTig_pres s id i d h1 h2
  | flushCacheAll => exact flushCacheAll_pres s id h1 h2
  | setSourceID i v =>
      by_cases hlt : i < s._tigLen
      · simp only [tgStore.applyOp, tgStore.setSourceID, if_pos hlt, Option.getD_some]
        exact setterState_pres s i (fun r => { r with _sourceID := v })
          (fun t => { t with _sourceID := v }) id h1 h2
      · simp only [tgStore.applyOp, tgStore.setSourceID, if_neg hlt, Option.getD_none]
        exact ⟨h1, h2⟩
  | setSourceBgn i v =>
      by_cases hlt : i < s._tigLen
      · simp only [tgStore.applyOp, tgStore.setSourceBgn, if_pos hlt, Option.getD_some]
        exact setterState_pres s i (fun r => { r with _sourceBgn := v })
          (fun t => { t with _sourceBgn := v }) id h1 h2
      · simp only [tgStore.applyOp, tgStore.setSourceBgn, if_neg hlt, Option.getD_none]
        exact ⟨h1, h2⟩
  | setSourceEnd i v =>
      by_cases hlt : i < s._tigLen
      · simp only [tgStore.applyOp, tgStore.setSourceEnd, if_pos hlt, Option.getD_some]
        exact setterState_pres s i (fun r => { r with _sourceEnd := v })
          (fun t => { t with _sourceEnd := v }) id h1 h2
      · simp only [tgStore.applyOp, tgStore.setSourceEnd, if_neg hlt, Option.getD_none]
        exact ⟨h1, h2⟩
  | setClass i c =>
      by_cases hlt : i < s._tigLen
      · simp only [tgStore.applyOp, tgStore.setClass, if_pos hlt, Option.getD_some]
        exact setterState_pres s i (fun r => { r with _class := c })
          (fun t => { t with _class := c }) id h1 h2
      · simp only [tgStore.applyOp, tgStore.setClass, if_neg hlt, Option.getD_none]
        exact ⟨h1, h2⟩
  | setSuggestRepeat i b =>
      by_cases hlt : i < s._tigLen
      · simp only [tgStore.applyOp, tgStore.setSuggestRepeat, if_pos hlt, Option.getD_some]
        exact setterState_pres s i (fun r => { r with _suggestRepeat := b })
          (fun t => { t with _suggestRepeat := b }) id h1 h2
      · simp only [tgStore.applyOp, tgStore.setSuggestRepeat, if_neg hlt, Option.getD_none]
        exact ⟨h1, h2⟩
  | setSuggestCircular i b =>
      by_cases hlt : i < s._tigLen
      · simp only [tgStore.applyOp, tgStore.setSuggestCircular, if_pos hlt, Option.getD_some]
        exact setterState_pres s i (fun r => { r with _suggestCircular := b })
          (fun t => { t with _suggestCircular := b }) id h1 h2
      · simp only [tgStore.applyOp, tgStore.setSuggestCircular, if_neg hlt, Option.getD_none]
        exact ⟨h1, h2⟩

/-- C6: deletion is monotone within a session: after `deleteTig(id)`,
`isDeleted(id)` stays true across any sequence of store operations that
contains no insert at that same identifier — no operation other than an
insert clears the deleted flag. -/
theorem delete_monotone (s : tgStore) (id : Nat) (ops : List tgStoreOp)
    (hid : id < s._tigLen)
    (hops : ∀ op ∈ ops, op.isInsertAt id = false) :
    tgStore.isDeleted
      (tgStore.applyOps ((tgStore.deleteTig s id).getD s) ops) id = true := by
  have base : ((((tgStore.deleteTig s id).getD s))._tigEntry id).isDeleted = true ∧
      ((tgStore.deleteTig s id).getD s)._tigCache id = none := by
    unfold tgStore.deleteTig
    rw [if_pos hid]
    exact ⟨by simp [updEntry], by simp [updCache]⟩
  have main : ∀ (l : List tgStoreOp) (s0 : tgStore),
      (s0._tigEntry id).isDeleted = true → s0._tigCache id = none →
      (∀ op ∈ l, op.isInsertAt id = false) →
      ((l.foldl tgStore.applyOp s0)._tigEntry id).isDeleted = true := by
    intro l
    induction l with
    | nil => intro s0 a _ _; exact a
    | cons a l ih =>
        intro s0 ha hb hc
        have hstep := applyOp_pres s0 id a ha hb (hc a (List.mem_cons_self a l))
        simp only [List.foldl_cons]
        exact ih _ hstep.1 hstep.2 (fun op hop => hc op (List.mem_cons_of_mem a hop))
  exact main ops _ base.1 base.2 hops

theorem delete_monotone_witness :
    0 < storeOne._tigLen ∧
    tgStore.isDeleted
      (tgStore.applyOps ((tgStore.deleteTig storeOne 0).getD storeOne)
        [tgStoreOp.setClass 0 3, tgStoreOp.flushCacheAll]) 0 = true :=
  ⟨by decide,
   delete_monotone storeOne 0 [tgStoreOp.setClass 0 3, tgStoreOp.flushCacheAll]
     (by decide) (by decide)⟩

/- ### C5: insert-then-copy round trip -/

theorem overlay_record_self (t : tgTig) : tgTigRecord.overlay t.record t = t := by
  cases t; rfl

/-- C5: inserting a well-formed tig with `keepInCache = false` and then
copying it back by its identifier yields the tig unchanged, children
array included — encode followed by decode is the identity on tigs.  The
bound hypotheses say the encoded record fits the 4-byte length prefix and
the slot's 10-bit version and 40-bit offset fields. -/
theorem insert_copy_roundtrip (s : tgStore) (t : tgTig) (ht : t.wf)
    (hlen : (tgTig.encode t).length < 2 ^ 32)
    (hv : s._currentVersion < 2 ^ 10)
    (hoff : (s._dataFile s._currentVersion).length < 2 ^ 40) :
    tgStore.copyTig (tgStore.insertTig s t false) t._tigID = some t := by
  have hmax : t._tigID < max s._tigLen (t._tigID + 1) :=
    Nat.lt_of_lt_of_le (Nat.lt_succ_self _) (Nat.le_max_right _ _)
  have hL : (tgTig.encode t).length < 256 ^ 4 := by
    have h4 : (256:Nat) ^ 4 = 2 ^ 32 := by norm_num
    omega
  have hv2 : s._currentVersion < 1024 := by norm_num at hv; exact hv
  have hoff2 : (s._dataFile s._currentVersion).length < 1099511627776 := by
    norm_num at hoff; exact hoff
  have hcv : s._currentVersion % 1024 = s._currentVersion := Nat.mod_eq_of_lt hv2
  have hofl : (s._dataFile s._currentVersion).length % 1099511627776 =
      (s._dataFile s._currentVersion).length := Nat.mod_eq_of_lt hoff2
  have hdrop1 : (s._dataFile s._currentVersion ++
      (leBytes 4 (tgTig.encode t).length ++ tgTig.encode t)).drop
        (s._dataFile s._currentVersion).length =
      leBytes 4 (tgTig.encode t).length ++ tgTig.encode t := List.drop_left' rfl
  have htake4 : (leBytes 4 (tgTig.encode t).length ++ tgTig.encode t).take 4 =
      leBytes 4 (tgTig.encode t).length := List.take_left' (leBytes_length 4 _)
  have hdrop4 : (leBytes 4 (tgTig.encode t).length ++ tgTig.encode t).drop 4 =
      tgTig.encode t := List.drop_left' (leBytes_length 4 _)
  have hval : leVal (leBytes 4 (tgTig.encode t).length) = (tgTig.encode t).length :=
    leVal_leBytes_of_lt hL
  have htakeL : (tgTig.encode t).take (tgTig.encode t).length = tgTig.encode t :=
    List.take_length (tgTig.encode t)
  have hdrop14 : List.drop ((s._dataFile s._currentVersion).length + 4)
      (s._dataFile s._currentVersion ++
        (leBytes 4 (tgTig.encode t).length ++ tgTig.encode t)) = tgTig.encode t := by
    rw [← List.drop_drop, hdrop1, hdrop4]
  have hdec := tgTig_decode_encode t ht
  simp [tgStore.copyTig, tgStore.insertTig, tgStore.writeTigToDisk,
    tgStore.readTigFromDisk, updEntry, updCache, updFile, Option.orElse,
    List.append_assoc, hmax, hv2, hcv, hofl, hdrop1, htake4, hdrop4, hdrop14,
    hval, htakeL, hdec, overlay_record_self]

/-- The tig of spec scenario S1: identifier 0, source-id 100, one child
read 7 forward on [0, 50). -/
def tigS1 : tgTig :=
  { _tigID := 0
    _sourceID := 100
    _sourceBgn := 0
    _sourceEnd := 50
    _class := 1
    _suggestRepeat := false
    _suggestCircular := false
    _children := [⟨7, false, 0, 50, 0⟩] }

theorem insert_copy_roundtrip_witness :
    tigS1.wf ∧
    tgStore.copyTig (tgStore.insertTig storeNil tigS1 false) 0 = some tigS1 :=
  ⟨by decide,
   insert_copy_roundtrip storeNil tigS1 (by decide) (by decide) (by decide) (by decide)⟩
